import Mathlib

/-!
# Verification of the Odd-Even policy analysis pipeline

A shallow embedding of `src/analysis.py`: the data-preparation step
(`load_and_prepare_real_data`), the date-window labeling (`get_policy_status`),
and the statistical comparison (`perform_statistical_analysis`), together with
the percent-change computation of `create_visualizations`.

Calendar dates are modelled by a `Date` structure (year, month, day) together
with `toOrd`, the proleptic-Gregorian day ordinal; pandas `Timestamp`
comparison and day arithmetic correspond to ordinal comparison and integer
arithmetic, and `pd.DateOffset(years=1)` subtraction is the calendar-aware
`subYears1` (decrement the year, clamping Feb 29 to Feb 28).
-/

set_option autoImplicit false

namespace OddEven

/-- Gregorian leap-year test. -/
def isLeap (y : Nat) : Bool :=
  (y % 4 == 0 && y % 100 != 0) || y % 400 == 0

/-- Number of days in month `m` (1–12) of year `y`. -/
def daysInMonth (y : Nat) (m : Nat) : Nat :=
  match m with
  | 1 => 31
  | 2 => if isLeap y then 29 else 28
  | 3 => 31
  | 4 => 30
  | 5 => 31
  | 6 => 30
  | 7 => 31
  | 8 => 31
  | 9 => 30
  | 10 => 31
  | 11 => 30
  | 12 => 31
  | _ => 0

/-- Days in year `y` strictly before month `m`. -/
def daysBeforeMonth (y : Nat) (m : Nat) : Nat :=
  (List.range (m - 1)).foldl (fun acc i => acc + daysInMonth y (i + 1)) 0

/-- A calendar date (as carried by a pandas `Timestamp` at day resolution). -/
structure Date where
  year : Nat
  month : Nat
  day : Nat
deriving DecidableEq, Repr

/-- Day ordinal of a date in the proleptic Gregorian calendar
(day 1 = January 1 of year 1).  Two `Timestamp`s compare the way their
ordinals do, and `pd.Timedelta` day arithmetic is ordinal arithmetic. -/
def toOrd (d : Date) : Int :=
  let y := d.year - 1
  ((365 * y + y / 4 - y / 100 + y / 400 + daysBeforeMonth d.year d.month + d.day : Nat) : Int)

/-- Subtraction of `pd.DateOffset(years=1)`: same month and day in the previous
year, with the day clamped to the length of that month (Feb 29 → Feb 28). -/
def subYears1 (d : Date) : Date :=
  ⟨d.year - 1, d.month, min d.day (daysInMonth (d.year - 1) d.month)⟩

/-- A policy phase: a name with a start and end date
(one entry of the `policy_periods` dict). -/
structure Phase where
  name : String
  start : Date
  «end» : Date
deriving DecidableEq, Repr

/-- The hard-coded `policy_periods` configuration, in declaration order. -/
def policy_periods : List Phase :=
  [ ⟨"Phase 1", ⟨2016, 1, 1⟩, ⟨2016, 1, 15⟩⟩,
    ⟨"Phase 2", ⟨2016, 4, 15⟩, ⟨2016, 4, 30⟩⟩,
    ⟨"Phase 3", ⟨2017, 11, 13⟩, ⟨2017, 11, 17⟩⟩,
    ⟨"Phase 4", ⟨2019, 11, 4⟩, ⟨2019, 11, 15⟩⟩ ]

/-- The body of the `for phase, dates in policy_periods.items()` loop of
`get_policy_status`, for one phase: the During / Before / Control checks in
source order, `none` when the date is in none of the phase's windows.
`date` is the day ordinal of the date under classification. -/
def phaseStatus (date : Int) (p : Phase) : Option String :=
  let start := toOrd p.start
  let e := toOrd p.«end»
  let delta := e - start
  if start ≤ date ∧ date ≤ e then
    some ("During " ++ p.name)
  else if start - delta - 1 ≤ date ∧ date < start then
    some ("Before " ++ p.name)
  else if toOrd (subYears1 p.start) ≤ date ∧ date ≤ toOrd (subYears1 p.«end») then
    some ("Control " ++ p.name)
  else
    none

/-- The `for` loop of `get_policy_status`: first phase whose window check
fires wins. -/
def firstStatus (date : Int) : List Phase → Option String
  | [] => none
  | p :: ps =>
    match phaseStatus date p with
    | some s => some s
    | none => firstStatus date ps

/-- The function `get_policy_status(date)`: label of the first matching phase in
declaration order, else `'Normal Day'`. -/
def get_policy_status (date : Int) : String :=
  (firstStatus date policy_periods).getD "Normal Day"

/-! ## Data preparation (`load_and_prepare_real_data`) -/

/-- One row of the CSV after parsing: the `City` column, the `Date` column
(as a day ordinal), the two tracked pollutant columns `pm25` / `no2`
(`none` = NaN), and the values of all remaining columns of the file
(PM10, CO, AQI, … — present in `city_day.csv` but never forward-filled). -/
structure RawRow where
  city : String
  date : Int
  pm25 : Option ℚ
  no2 : Option ℚ
  other : List (Option ℚ)
deriving DecidableEq, Repr

/-- The fills `df['pm25'].ffill()` and `df['no2'].ffill()`, fused into one pass over
the rows: each column is forward-filled independently and positionally,
`lp` / `ln` being the value last seen in the `pm25` / `no2` column. -/
def ffillRows (lp ln : Option ℚ) : List RawRow → List RawRow
  | [] => []
  | r :: rs =>
    let p := r.pm25.or lp
    let n := r.no2.or ln
    { r with pm25 := p, no2 := n } :: ffillRows p n rs

/-- The single-column forward fill (`Series.ffill()`), used to relate
`ffillRows` to the two columnwise fills it fuses. -/
def ffillCol {α : Type} (last : Option α) : List (Option α) → List (Option α)
  | [] => []
  | x :: xs => (x.or last) :: ffillCol (x.or last) xs

/-- Row predicate of `df.dropna()`: the row survives iff no cell of the row
— tracked or not — is NaN. -/
def keepRow (r : RawRow) : Bool :=
  r.pm25.isSome && r.no2.isSome && r.other.all Option.isSome

/-- The cleaning pipeline after the Delhi filter: forward-fill the two
tracked columns, then `dropna()`. -/
def clean (rows : List RawRow) : List RawRow :=
  (ffillRows none none rows).filter keepRow

/-- Exit status produced by Python's `sys.exit(arg)`:
`sys.exit()` (no argument) terminates the process with status 0. -/
def sysExitStatus (arg : Option Nat) : Nat :=
  arg.getD 0

/-- Result of a program run that may terminate early:
either a value, or process termination with the printed diagnostic
messages and the exit status. -/
inductive RunOutcome (α : Type) where
  | ok : α → RunOutcome α
  | exits : List String → Nat → RunOutcome α
deriving DecidableEq, Repr

/-- The entry point `load_and_prepare_real_data`: `none` models a missing input file
(`pd.read_csv` raising `FileNotFoundError`), in which case the two
diagnostics are printed and `sys.exit()` is called; otherwise the rows are
filtered to Delhi, cleaned, and labeled with `policy_status`. -/
def load_and_prepare_real_data (file : Option (List RawRow)) :
    RunOutcome (List (RawRow × String)) :=
  match file with
  | none =>
    .exits
      [ "[ERROR] Data file not found at data/city_day.csv.",
        "Please ensure city_day.csv is inside a data subfolder." ]
      (sysExitStatus none)
  | some rows =>
    .ok ((clean (rows.filter (fun r => r.city == "Delhi"))).map
      (fun r => (r, get_policy_status r.date)))

/-! ## Statistical comparison (`perform_statistical_analysis`) and the
percent-change annotation of `create_visualizations` -/

/-- One row of the labeled daily series consumed by the Comparator. -/
structure Row where
  date : Int
  pm25 : ℚ
  no2 : ℚ
  policy_status : String
deriving DecidableEq, Repr

/-- Arithmetic mean of a sample (`Series.mean()`). -/
def mean (xs : List ℚ) : ℚ :=
  xs.sum / (xs.length : ℚ)

/-- Outcome of `perform_statistical_analysis` as the spec reads it off the
printed report: `Inconclusive` when a sample is empty, otherwise the
verdict of the p < 0.05 rule together with the two reported sample means
and the p-value. -/
inductive Verdict where
  | Inconclusive : Verdict
  | SignificantReduction : ℚ → ℚ → ℚ → Verdict
  | NotSignificant : ℚ → ℚ → ℚ → Verdict
deriving DecidableEq, Repr

/-- The during-sample: `df[df['policy_status'] == f'During {phase}']['pm25']`. -/
def duringData (df : List Row) (phase : String) : List ℚ :=
  (df.filter (fun r => r.policy_status == "During " ++ phase)).map (·.pm25)

/-- The control-sample: `df[df['policy_status'] == f'Control {phase}']['pm25']`. -/
def controlData (df : List Row) (phase : String) : List ℚ :=
  (df.filter (fun r => r.policy_status == "Control " ++ phase)).map (·.pm25)

/-- The comparison `perform_statistical_analysis(df, phase)`.  The rank-sum engine
`mannwhitneyu(..., alternative='less')` is the black-box collaborator
`test`, returning `(statistic, p_value)` for the two samples. -/
def perform_statistical_analysis (test : List ℚ → List ℚ → ℚ × ℚ)
    (df : List Row) (phase : String) : Verdict :=
  let during_data := duringData df phase
  let control_data := controlData df phase
  if during_data.isEmpty || control_data.isEmpty then
    .Inconclusive
  else
    let p_value := (test during_data control_data).2
    if p_value < 5 / 100 then
      .SignificantReduction (mean during_data) (mean control_data) p_value
    else
      .NotSignificant (mean during_data) (mean control_data) p_value

/-- Substring test on character lists (Python's `'During' in x`). -/
def listHasInfix (pat : List Char) : List Char → Bool
  | [] => pat.isEmpty
  | c :: cs => pat.isPrefixOf (c :: cs) || listHasInfix pat cs

/-- The `period` relabeling of `create_visualizations`:
`'During Policy' if 'During' in x else 'Control (Prior Year)'`. -/
def periodOf (status : String) : String :=
  if listHasInfix "During".toList status.toList then "During Policy"
  else "Control (Prior Year)"

/-- The percent-change annotation of `create_visualizations`: restrict to
the rows labeled `During {phase}` or `Control {phase}` (`comp_df`), group
the `pm25` means by `period`, and compute
`((during_pm25 - control_pm25) / control_pm25) * 100`. -/
def pctChange (df : List Row) (phase : String) : ℚ :=
  let comp_df := df.filter (fun r =>
    r.policy_status == "During " ++ phase || r.policy_status == "Control " ++ phase)
  let control_pm25 := mean ((comp_df.filter
    (fun r => periodOf r.policy_status == "Control (Prior Year)")).map (·.pm25))
  let during_pm25 := mean ((comp_df.filter
    (fun r => periodOf r.policy_status == "During Policy")).map (·.pm25))
  ((during_pm25 - control_pm25) / control_pm25) * 100

/-! ## Facts about the labeling loop -/

theorem firstStatus_cons_some {d : Int} {p : Phase} {ps : List Phase} {s : String}
    (h : phaseStatus d p = some s) : firstStatus d (p :: ps) = some s := by
  simp [firstStatus, h]

theorem firstStatus_cons_none {d : Int} {p : Phase} {ps : List Phase}
    (h : phaseStatus d p = none) : firstStatus d (p :: ps) = firstStatus d ps := by
  simp [firstStatus, h]

theorem firstStatus_eq_none (d : Int) :
    ∀ l : List Phase, (∀ p ∈ l, phaseStatus d p = none) → firstStatus d l = none
  | [], _ => rfl
  | p :: ps, h => by
    rw [firstStatus_cons_none (h p (by simp))]
    exact firstStatus_eq_none d ps (fun q hq => h q (by simp [hq]))

theorem firstStatus_first_match (d : Int) :
    ∀ (l : List Phase) (i : Nat) (h : i < l.length),
      (∀ j (hj : j < i), phaseStatus d (l.get ⟨j, hj.trans h⟩) = none) →
      ∀ s, phaseStatus d (l.get ⟨i, h⟩) = some s → firstStatus d l = some s
  | _ :: _, 0, _, _, _, hs => firstStatus_cons_some hs
  | p :: ps, i + 1, h, hnone, s, hs => by
    have h0 : phaseStatus d p = none := hnone 0 (Nat.succ_pos i)
    rw [firstStatus_cons_none h0]
    exact firstStatus_first_match d ps i (Nat.lt_of_succ_lt_succ h)
      (fun j hj => hnone (j + 1) (Nat.succ_lt_succ hj)) s hs

theorem append_left_ne {s t : String} (h : s.length ≠ t.length) (n : String) :
    s ++ n ≠ t ++ n := by
  intro he
  apply h
  have hl := congrArg String.length he
  rw [String.length_append, String.length_append] at hl
  omega

/-- C4: `get_policy_status` is total and deterministic with first-match
precedence: every date gets the label of the earliest-declared phase whose
window contains it ("Normal Day" when none does), During is checked before
Before before Control, and a date in several phases' windows silently takes
the earliest-declared phase's label. -/
theorem get_policy_status_total_first_match (d : Int) :
    ((∀ p ∈ policy_periods, phaseStatus d p = none) →
        get_policy_status d = "Normal Day") ∧
    (∀ i (h : i < policy_periods.length),
        (∀ j (hj : j < i), phaseStatus d (policy_periods.get ⟨j, hj.trans h⟩) = none) →
        ∀ s, phaseStatus d (policy_periods.get ⟨i, h⟩) = some s →
        get_policy_status d = s) ∧
    (∀ p : Phase, toOrd p.start ≤ d ∧ d ≤ toOrd p.«end» →
        phaseStatus d p = some ("During " ++ p.name)) ∧
    (∀ p : Phase, ¬(toOrd p.start ≤ d ∧ d ≤ toOrd p.«end») →
        toOrd p.start - (toOrd p.«end» - toOrd p.start) - 1 ≤ d ∧ d < toOrd p.start →
        phaseStatus d p = some ("Before " ++ p.name)) := by
  refine ⟨?_, ?_, ?_, ?_⟩
  · intro h
    unfold get_policy_status
    rw [firstStatus_eq_none d _ h]
    rfl
  · intro i h hnone s hs
    unfold get_policy_status
    rw [firstStatus_first_match d _ i h hnone s hs]
    rfl
  · intro p hp
    simp [phaseStatus, hp]
  · intro p hnd hb
    simp [phaseStatus, hnd, hb]

theorem get_policy_status_total_first_match_witness :
    get_policy_status (toOrd ⟨2016, 1, 5⟩) = "During Phase 1" :=
  (get_policy_status_total_first_match (toOrd ⟨2016, 1, 5⟩)).2.1 0 (by decide)
    (fun j hj => absurd hj (Nat.not_lt_zero j)) "During Phase 1" (by decide)

/-- C5: the Control check of `get_policy_status` is the During window
shifted back one calendar year (a date passes it iff
`start - 1yr ≤ d ≤ end - 1yr`), `status(end - 1yr)` is the Control label
for every configured phase, and the shift is calendar-aware, not a fixed
365-day offset: Feb 29 clamps to Feb 28, the Phase 2 start shifts by 366
days (across the 2016 leap day) while the Phase 3 start shifts by 365. -/
theorem control_window_calendar_shift :
    (∀ p ∈ policy_periods, ∀ d : Int,
        ¬(toOrd p.start ≤ d ∧ d ≤ toOrd p.«end») →
        ¬(toOrd p.start - (toOrd p.«end» - toOrd p.start) - 1 ≤ d ∧ d < toOrd p.start) →
        (phaseStatus d p = some ("Control " ++ p.name) ↔
          toOrd (subYears1 p.start) ≤ d ∧ d ≤ toOrd (subYears1 p.«end»))) ∧
    (∀ p ∈ policy_periods,
        get_policy_status (toOrd (subYears1 p.«end»)) = "Control " ++ p.name) ∧
    subYears1 ⟨2016, 2, 29⟩ = ⟨2015, 2, 28⟩ ∧
    toOrd ⟨2016, 4, 15⟩ - toOrd (subYears1 ⟨2016, 4, 15⟩) = 366 ∧
    toOrd ⟨2017, 11, 13⟩ - toOrd (subYears1 ⟨2017, 11, 13⟩) = 365 := by
  refine ⟨?_, by decide, by decide, by decide, by decide⟩
  intro p _ d hnd hnb
  by_cases hc : toOrd (subYears1 p.start) ≤ d ∧ d ≤ toOrd (subYears1 p.«end») <;>
      simp [phaseStatus, hnd, hc] <;>
    exact fun h1 h2 => absurd ⟨by omega, h2⟩ hnb

theorem control_window_calendar_shift_witness :
    phaseStatus (toOrd ⟨2018, 11, 10⟩) ⟨"Phase 4", ⟨2019, 11, 4⟩, ⟨2019, 11, 15⟩⟩ =
      some ("Control " ++ "Phase 4") ↔
    toOrd (subYears1 ⟨2019, 11, 4⟩) ≤ toOrd ⟨2018, 11, 10⟩ ∧
      toOrd ⟨2018, 11, 10⟩ ≤ toOrd (subYears1 ⟨2019, 11, 15⟩) :=
  control_window_calendar_shift.1 ⟨"Phase 4", ⟨2019, 11, 4⟩, ⟨2019, 11, 15⟩⟩
    (by decide) (toOrd ⟨2018, 11, 10⟩) (by decide) (by decide)

/-- C6: the Before check of `get_policy_status` is the half-open interval
`[start - D - 1 day, start)` (`D = end - start`), excluding `start`; for
every configured phase the day before the start is labeled Before and the
start itself During. -/
theorem before_window_half_open :
    (∀ (p : Phase) (d : Int),
        ¬(toOrd p.start ≤ d ∧ d ≤ toOrd p.«end») →
        (phaseStatus d p = some ("Before " ++ p.name) ↔
          toOrd p.start - (toOrd p.«end» - toOrd p.start) - 1 ≤ d ∧ d < toOrd p.start)) ∧
    (∀ p ∈ policy_periods,
        get_policy_status (toOrd p.start - 1) = "Before " ++ p.name ∧
        get_policy_status (toOrd p.start) = "During " ++ p.name) := by
  refine ⟨?_, by decide⟩
  intro p d hnd
  simp only [phaseStatus]
  rw [if_neg hnd]
  by_cases hb : toOrd p.start - (toOrd p.«end» - toOrd p.start) - 1 ≤ d ∧ d < toOrd p.start
  · rw [if_pos hb]
    exact ⟨fun _ => hb, fun _ => rfl⟩
  · rw [if_neg hb]
    refine ⟨fun h => ?_, fun h => absurd h hb⟩
    by_cases hc : toOrd (subYears1 p.start) ≤ d ∧ d ≤ toOrd (subYears1 p.«end»)
    · rw [if_pos hc] at h
      exact absurd (Option.some.inj h) (@append_left_ne "Control " "Before " (by decide) p.name)
    · rw [if_neg hc] at h
      exact Option.noConfusion h

theorem before_window_half_open_witness :
    phaseStatus (toOrd ⟨2017, 11, 12⟩) ⟨"Phase 3", ⟨2017, 11, 13⟩, ⟨2017, 11, 17⟩⟩ =
      some ("Before " ++ "Phase 3") ↔
    toOrd ⟨2017, 11, 13⟩ -
        (toOrd ⟨2017, 11, 17⟩ - toOrd ⟨2017, 11, 13⟩) - 1 ≤ toOrd ⟨2017, 11, 12⟩ ∧
      toOrd ⟨2017, 11, 12⟩ < toOrd ⟨2017, 11, 13⟩ :=
  before_window_half_open.1 ⟨"Phase 3", ⟨2017, 11, 13⟩, ⟨2017, 11, 17⟩⟩
    (toOrd ⟨2017, 11, 12⟩) (by decide)

/-! ## The twelve derived windows and their disjointness -/

/-- The three windows `get_policy_status` checks for a phase, as closed
integer intervals of day ordinals: During `[start, end]`, Before
`[start - D - 1, start - 1]` (the half-open `[start - D - 1, start)` over
whole days), Control `[start - 1yr, end - 1yr]`. -/
def windowsOf (p : Phase) : List (Int × Int) :=
  [ (toOrd p.start, toOrd p.«end»),
    (toOrd p.start - (toOrd p.«end» - toOrd p.start) - 1, toOrd p.start - 1),
    (toOrd (subYears1 p.start), toOrd (subYears1 p.«end»)) ]

/-- The twelve windows derived from the four configured phases. -/
def allWindows : List (Int × Int) :=
  policy_periods.flatMap windowsOf

/-- Day ordinal `d` lies in the closed interval `w`. -/
def inWindow (d : Int) (w : Int × Int) : Bool :=
  decide (w.1 ≤ d) && decide (d ≤ w.2)

/-- Every interval of the list is disjoint from every later one. -/
def pairwiseDisjoint : List (Int × Int) → Bool
  | [] => true
  | w :: ws =>
    ws.all (fun v => decide (w.2 < v.1) || decide (v.2 < w.1)) && pairwiseDisjoint ws

theorem countP_le_one_of_pairwiseDisjoint :
    ∀ l : List (Int × Int), pairwiseDisjoint l = true →
      ∀ d : Int, l.countP (inWindow d) ≤ 1
  | [], _, _ => by simp
  | w :: ws, h, d => by
    rw [pairwiseDisjoint, Bool.and_eq_true, List.all_eq_true] at h
    obtain ⟨hall, hrest⟩ := h
    rw [List.countP_cons]
    by_cases hw : inWindow d w = true
    · have hzero : ws.countP (inWindow d) = 0 := by
        rw [List.countP_eq_zero]
        intro v hv
        have hdis := hall v hv
        rw [Bool.or_eq_true, decide_eq_true_eq, decide_eq_true_eq] at hdis
        rw [inWindow, Bool.and_eq_true, decide_eq_true_eq, decide_eq_true_eq] at hw ⊢
        omega
      simp [hzero, hw]
    · have := countP_le_one_of_pairwiseDisjoint ws hrest d
      simp [hw]
      omega

theorem phase_match_iff_window (d : Int) (p : Phase) :
    (phaseStatus d p).isSome = true ↔ (windowsOf p).any (inWindow d) = true := by
  simp only [phaseStatus, windowsOf, List.any_cons, List.any_nil, inWindow,
    Bool.or_eq_true, Bool.and_eq_true, decide_eq_true_eq, Bool.or_false]
  by_cases h1 : toOrd p.start ≤ d ∧ d ≤ toOrd p.«end»
  · rw [if_pos h1]
    exact iff_of_true rfl (Or.inl h1)
  · rw [if_neg h1]
    by_cases h2 : toOrd p.start - (toOrd p.«end» - toOrd p.start) - 1 ≤ d ∧ d < toOrd p.start
    · rw [if_pos h2]
      exact iff_of_true rfl (Or.inr (Or.inl ⟨h2.1, by omega⟩))
    · rw [if_neg h2]
      by_cases h3 : toOrd (subYears1 p.start) ≤ d ∧ d ≤ toOrd (subYears1 p.«end»)
      · rw [if_pos h3]
        exact iff_of_true rfl (Or.inr (Or.inr h3))
      · rw [if_neg h3]
        refine iff_of_false (by simp) ?_
        rintro (h | h | h)
        · exact h1 h
        · exact h2 ⟨h.1, by omega⟩
        · exact h3 h

theorem phases_countP_le_windows (d : Int) :
    ∀ ps : List Phase,
      ps.countP (fun p => (phaseStatus d p).isSome) ≤ (ps.flatMap windowsOf).countP (inWindow d)
  | [] => by simp
  | p :: ps => by
    rw [List.flatMap_cons, List.countP_append, List.countP_cons]
    have IH := phases_countP_le_windows d ps
    by_cases hp : (phaseStatus d p).isSome = true
    · have hpos : 0 < (windowsOf p).countP (inWindow d) := by
        rw [List.countP_pos_iff]
        obtain ⟨w, hw, hinw⟩ := List.any_eq_true.mp ((phase_match_iff_window d p).mp hp)
        exact ⟨w, hw, hinw⟩
      simp only [hp, if_pos]
      omega
    · simp only [hp, if_neg]
      simp
      omega

/-- C10: for the hard-coded four-phase configuration the twelve derived
windows are pairwise disjoint, every day ordinal lies in at most one
window, at most one phase's checks can fire for any date, and a phase's
checks fire exactly when one of its three windows contains the date — so
the first-match precedence never decides between competing labels. -/
theorem windows_pairwise_disjoint :
    pairwiseDisjoint allWindows = true ∧
    (∀ d : Int, allWindows.countP (inWindow d) ≤ 1) ∧
    (∀ d : Int, policy_periods.countP (fun p => (phaseStatus d p).isSome) ≤ 1) ∧
    (∀ (d : Int) (p : Phase),
      (phaseStatus d p).isSome = true ↔ (windowsOf p).any (inWindow d) = true) := by
  have hdisj : pairwiseDisjoint allWindows = true := by decide
  refine ⟨hdisj, fun d => countP_le_one_of_pairwiseDisjoint _ hdisj d,
    fun d => ?_, phase_match_iff_window⟩
  exact le_trans (phases_countP_le_windows d policy_periods)
    (countP_le_one_of_pairwiseDisjoint _ hdisj d)

/-! ## Comparator theorems -/

/-- C7: with an empty during-sample or control-sample the comparison is
Inconclusive for every statistical-test collaborator — the test is never
consulted — and the outcome is an ordinary value, not an exception. -/
theorem compare_empty_sample_inconclusive (df : List Row) (phase : String)
    (h : duringData df phase = [] ∨ controlData df phase = []) :
    ∀ test : List ℚ → List ℚ → ℚ × ℚ,
      perform_statistical_analysis test df phase = Verdict.Inconclusive := by
  intro test
  unfold perform_statistical_analysis
  rcases h with h | h <;> simp [h]

theorem compare_empty_sample_inconclusive_witness :
    perform_statistical_analysis (fun _ _ => ((0 : ℚ), (1 : ℚ) / 100)) [] "Phase 1" =
      Verdict.Inconclusive :=
  compare_empty_sample_inconclusive [] "Phase 1" (Or.inl rfl) _

/-- C8: with both samples non-empty the comparison applies the
p < 0.05 decision rule to the collaborator's p-value and reports the
arithmetic mean of each sample in either verdict. -/
theorem compare_decision_rule (test : List ℚ → List ℚ → ℚ × ℚ)
    (df : List Row) (phase : String)
    (h1 : duringData df phase ≠ []) (h2 : controlData df phase ≠ []) :
    perform_statistical_analysis test df phase =
      if (test (duringData df phase) (controlData df phase)).2 < 5 / 100 then
        Verdict.SignificantReduction (mean (duringData df phase))
          (mean (controlData df phase))
          (test (duringData df phase) (controlData df phase)).2
      else
        Verdict.NotSignificant (mean (duringData df phase))
          (mean (controlData df phase))
          (test (duringData df phase) (controlData df phase)).2 := by
  have e1 : (duringData df phase).isEmpty = false := List.isEmpty_eq_false.mpr h1
  have e2 : (controlData df phase).isEmpty = false := List.isEmpty_eq_false.mpr h2
  unfold perform_statistical_analysis
  simp only [e1, e2, Bool.or_self, Bool.false_eq_true, if_false]

def exTest : List ℚ → List ℚ → ℚ × ℚ := fun _ _ => (210, 1 / 2)

def exSeries : List Row :=
  [ ⟨toOrd ⟨2016, 1, 5⟩, 50, 30, "During Phase 1"⟩,
    ⟨toOrd ⟨2015, 1, 5⟩, 100, 60, "Control Phase 1"⟩ ]

theorem compare_decision_rule_witness :
    perform_statistical_analysis exTest exSeries "Phase 1" =
      Verdict.NotSignificant 50 100 (1 / 2) := by
  rw [compare_decision_rule exTest exSeries "Phase 1" (by decide) (by decide)]
  have hd : duringData exSeries "Phase 1" = [50] := rfl
  have hc : controlData exSeries "Phase 1" = [100] := rfl
  rw [hd, hc]
  norm_num [exTest, mean]

/-- Variant of `perform_statistical_analysis` with the dataframe threaded through
explicitly as state: boolean-mask selection, `.mean()` and the test call
all read `df` and produce new objects, and no step of the function writes
to it, so every branch returns the dataframe it received. -/
def perform_statistical_analysis_run (test : List ℚ → List ℚ → ℚ × ℚ)
    (df : List Row) (phase : String) : List Row × Verdict :=
  let during_data := duringData df phase
  let control_data := controlData df phase
  if during_data.isEmpty || control_data.isEmpty then
    (df, .Inconclusive)
  else
    let p_value := (test during_data control_data).2
    if p_value < 5 / 100 then
      (df, .SignificantReduction (mean during_data) (mean control_data) p_value)
    else
      (df, .NotSignificant (mean during_data) (mean control_data) p_value)

/-- C9: the comparison never mutates its input — the dataframe after the
call is the dataframe before it — and the verdict is the value of the pure
function `perform_statistical_analysis` of the series and phase name. -/
theorem compare_no_mutation (test : List ℚ → List ℚ → ℚ × ℚ)
    (df : List Row) (phase : String) :
    perform_statistical_analysis_run test df phase =
      (df, perform_statistical_analysis test df phase) := by
  unfold perform_statistical_analysis_run perform_statistical_analysis
  by_cases h : ((duringData df phase).isEmpty || (controlData df phase).isEmpty) = true
  · rw [if_pos h, if_pos h]
  · rw [if_neg h, if_neg h]
    by_cases hp : (test (duringData df phase) (controlData df phase)).2 < 5 / 100
    · rw [if_pos hp, if_pos hp]
    · rw [if_neg hp, if_neg hp]

/-! ## The concrete 50-vs-100 scenario (C3) -/

theorem periodOf_append_during (n : String) :
    periodOf ("During " ++ n) = "During Policy" := rfl

theorem periodOf_append_control (n : String)
    (hn : listHasInfix "During".toList ("Control " ++ n).toList = false) :
    periodOf ("Control " ++ n) = "Control (Prior Year)" := by
  unfold periodOf
  rw [hn]
  rfl

theorem comp_during_eq (df : List Row) (phase : String)
    (hn : listHasInfix "During".toList ("Control " ++ phase).toList = false) :
    ((df.filter (fun r => r.policy_status == "During " ++ phase ||
        r.policy_status == "Control " ++ phase)).filter
      (fun r => periodOf r.policy_status == "During Policy")).map (·.pm25) =
      duringData df phase := by
  unfold duringData
  rw [List.filter_filter]
  congr 1
  apply List.filter_congr
  intro r _
  by_cases hd : r.policy_status = "During " ++ phase
  · rw [hd, periodOf_append_during]
    simp only [beq_self_eq_true, Bool.true_and, Bool.true_or]
  · by_cases hc : r.policy_status = "Control " ++ phase
    · have hne : "Control " ++ phase ≠ "During " ++ phase :=
        @append_left_ne "Control " "During " (by decide) phase
      rw [hc, periodOf_append_control phase hn]
      have e1 : (("Control (Prior Year)" : String) == "During Policy") = false := by decide
      have e2 : ("Control " ++ phase == "During " ++ phase) = false :=
        beq_eq_false_iff_ne.mpr hne
      rw [e1, e2]
      simp
    · have e1 : (r.policy_status == "During " ++ phase) = false :=
        beq_eq_false_iff_ne.mpr hd
      have e2 : (r.policy_status == "Control " ++ phase) = false :=
        beq_eq_false_iff_ne.mpr hc
      rw [e1, e2]
      simp

theorem comp_control_eq (df : List Row) (phase : String)
    (hn : listHasInfix "During".toList ("Control " ++ phase).toList = false) :
    ((df.filter (fun r => r.policy_status == "During " ++ phase ||
        r.policy_status == "Control " ++ phase)).filter
      (fun r => periodOf r.policy_status == "Control (Prior Year)")).map (·.pm25) =
      controlData df phase := by
  unfold controlData
  rw [List.filter_filter]
  congr 1
  apply List.filter_congr
  intro r _
  by_cases hd : r.policy_status = "During " ++ phase
  · have hne : "During " ++ phase ≠ "Control " ++ phase :=
      @append_left_ne "During " "Control " (by decide) phase
    rw [hd, periodOf_append_during]
    have e1 : (("During Policy" : String) == "Control (Prior Year)") = false := by decide
    have e2 : ("During " ++ phase == "Control " ++ phase) = false :=
      beq_eq_false_iff_ne.mpr hne
    rw [e1, e2]
    simp
  · by_cases hc : r.policy_status = "Control " ++ phase
    · rw [hc, periodOf_append_control phase hn]
      simp only [beq_self_eq_true, Bool.true_and, Bool.or_true]
    · have e1 : (r.policy_status == "During " ++ phase) = false :=
        beq_eq_false_iff_ne.mpr hd
      have e2 : (r.policy_status == "Control " ++ phase) = false :=
        beq_eq_false_iff_ne.mpr hc
      rw [e1, e2]
      simp

/-- C3: for any labeled series whose during-sample has mean 50 and
control-sample mean 100 for a configured phase, with a p-value of 0.01
from the one-sided test, the comparison yields SignificantReduction with
those means and the reported percent change is
`((during - control) / control) * 100 = -50`. -/
theorem compare_concrete_scenario (test : List ℚ → List ℚ → ℚ × ℚ)
    (df : List Row) (phase : String)
    (hphase : phase ∈ policy_periods.map Phase.name)
    (hd : mean (duringData df phase) = 50)
    (hc : mean (controlData df phase) = 100)
    (hne1 : duringData df phase ≠ [])
    (hne2 : controlData df phase ≠ [])
    (hp : (test (duringData df phase) (controlData df phase)).2 = 1 / 100) :
    perform_statistical_analysis test df phase =
      Verdict.SignificantReduction 50 100 (1 / 100) ∧
    pctChange df phase = -50 := by
  have hn : listHasInfix "During".toList ("Control " ++ phase).toList = false := by
    simp only [policy_periods, List.map_cons, List.map_nil, List.mem_cons,
      List.not_mem_nil, or_false] at hphase
    rcases hphase with h | h | h | h <;> subst h <;> decide
  constructor
  · rw [compare_decision_rule test df phase hne1 hne2, hp, hd, hc,
      if_pos (by norm_num : (1 : ℚ) / 100 < 5 / 100)]
  · simp only [pctChange]
    rw [comp_during_eq df phase hn, comp_control_eq df phase hn, hd, hc]
    norm_num

def c3Test : List ℚ → List ℚ → ℚ × ℚ := fun _ _ => (210, 1 / 100)

def c3Series : List Row :=
  [ ⟨toOrd ⟨2019, 11, 10⟩, 50, 30, "During Phase 4"⟩,
    ⟨toOrd ⟨2018, 11, 10⟩, 100, 60, "Control Phase 4"⟩ ]

theorem compare_concrete_scenario_witness :
    perform_statistical_analysis c3Test c3Series "Phase 4" =
      Verdict.SignificantReduction 50 100 (1 / 100) ∧
    pctChange c3Series "Phase 4" = -50 :=
  compare_concrete_scenario c3Test c3Series "Phase 4" (by decide)
    (show mean [(50 : ℚ)] = 50 by norm_num [mean])
    (show mean [(100 : ℚ)] = 100 by norm_num [mean])
    (by decide) (by decide) rfl

/-! ## Missing input file (C2) -/

/-- The exit behavior the spec claims for a missing file: process
termination with a non-zero exit status. -/
def exitsNonzero {α : Type} : RunOutcome α → Prop
  | .ok _ => False
  | .exits _ c => c ≠ 0

/-- C2 counterexample: on a missing input file the run terminates through
`sys.exit()` called with no argument, which is exit status 0 — not a
non-zero status. -/
theorem missing_file_nonzero_exit_cex :
    ¬ exitsNonzero (load_and_prepare_real_data none) :=
  fun h => h rfl

/-- C2 (amended): when the input file is absent the run prints the two
diagnostics and terminates early via `sys.exit()` with no retry — but the
exit status is 0 (Python's `sys.exit()` with no argument), not non-zero. -/
theorem missing_file_exits_after_diagnostic :
    load_and_prepare_real_data none =
      .exits
        [ "[ERROR] Data file not found at data/city_day.csv.",
          "Please ensure city_day.csv is inside a data subfolder." ]
        (sysExitStatus none) ∧
    sysExitStatus none = 0 :=
  ⟨rfl, rfl⟩

/-! ## Forward fill and `dropna` (C1) -/

/-- Index of the first non-missing entry of a column (the length of the
leading all-NaN gap); equals the column length when every entry is
missing. -/
def firstObs : List (Option ℚ) → Nat
  | [] => 0
  | x :: xs =>
    match x with
    | some _ => 0
    | none => firstObs xs + 1

/-- Number of leading rows on which, after forward-filling from the last
seen values `lp` / `ln`, a tracked column is still missing. -/
def startIdx (lp ln : Option ℚ) : List RawRow → Nat
  | [] => 0
  | r :: rs =>
    if (r.pm25.or lp).isSome && (r.no2.or ln).isSome then 0
    else startIdx (r.pm25.or lp) (r.no2.or ln) rs + 1

theorem ffillRows_map_pm25 :
    ∀ (rows : List RawRow) (lp ln : Option ℚ),
      (ffillRows lp ln rows).map RawRow.pm25 = ffillCol lp (rows.map RawRow.pm25)
  | [], _, _ => rfl
  | r :: rs, lp, ln => by
    simp only [ffillRows, ffillCol, List.map_cons]
    exact congrArg _ (ffillRows_map_pm25 rs _ _)

theorem ffillRows_map_no2 :
    ∀ (rows : List RawRow) (lp ln : Option ℚ),
      (ffillRows lp ln rows).map RawRow.no2 = ffillCol ln (rows.map RawRow.no2)
  | [], _, _ => rfl
  | r :: rs, lp, ln => by
    simp only [ffillRows, ffillCol, List.map_cons]
    exact congrArg _ (ffillRows_map_no2 rs _ _)

theorem filter_keepRow_ffill_of_some :
    ∀ (rows : List RawRow) (lp ln : Option ℚ),
      lp.isSome = true → ln.isSome = true →
      (∀ r ∈ rows, r.other.all Option.isSome = true) →
      (ffillRows lp ln rows).filter keepRow = ffillRows lp ln rows
  | [], _, _, _, _, _ => rfl
  | r :: rs, lp, ln, hp, hn, ho => by
    simp only [ffillRows]
    have hp' : (r.pm25.or lp).isSome = true := by
      rw [Option.isSome_or, hp, Bool.or_true]
    have hn' : (r.no2.or ln).isSome = true := by
      rw [Option.isSome_or, hn, Bool.or_true]
    have hkeep : keepRow { r with pm25 := r.pm25.or lp, no2 := r.no2.or ln } = true := by
      simp [keepRow, hp', hn', ho r (by simp)]
    rw [List.filter_cons, if_pos hkeep,
      filter_keepRow_ffill_of_some rs _ _ hp' hn' (fun q hq => ho q (by simp [hq]))]

theorem filter_keepRow_ffill :
    ∀ (rows : List RawRow) (lp ln : Option ℚ),
      (∀ r ∈ rows, r.other.all Option.isSome = true) →
      (ffillRows lp ln rows).filter keepRow =
        (ffillRows lp ln rows).drop (startIdx lp ln rows)
  | [], _, _, _ => rfl
  | r :: rs, lp, ln, ho => by
    simp only [ffillRows, startIdx]
    by_cases hc : ((r.pm25.or lp).isSome && (r.no2.or ln).isSome) = true
    · rw [if_pos hc, List.drop_zero]
      rw [Bool.and_eq_true] at hc
      obtain ⟨hp', hn'⟩ := hc
      have hkeep : keepRow { r with pm25 := r.pm25.or lp, no2 := r.no2.or ln } = true := by
        simp [keepRow, hp', hn', ho r (by simp)]
      rw [List.filter_cons, if_pos hkeep,
        filter_keepRow_ffill_of_some rs _ _ hp' hn' (fun q hq => ho q (by simp [hq]))]
    · rw [if_neg hc]
      have hfalse : ((r.pm25.or lp).isSome && (r.no2.or ln).isSome) = false := by
        revert hc
        cases ((r.pm25.or lp).isSome && (r.no2.or ln).isSome) <;> simp
      have hkeep : keepRow { r with pm25 := r.pm25.or lp, no2 := r.no2.or ln } = false := by
        show ((r.pm25.or lp).isSome && (r.no2.or ln).isSome && r.other.all Option.isSome) = false
        rw [hfalse, Bool.false_and]
      rw [List.filter_cons, if_neg (by rw [hkeep]; exact Bool.false_ne_true),
        List.drop_succ_cons]
      exact filter_keepRow_ffill rs _ _ (fun q hq => ho q (by simp [hq]))

theorem startIdx_eq_max :
    ∀ (rows : List RawRow) (lp ln : Option ℚ),
      startIdx lp ln rows =
        max (if lp.isSome then 0 else firstObs (rows.map RawRow.pm25))
            (if ln.isSome then 0 else firstObs (rows.map RawRow.no2))
  | [], lp, ln => by cases lp <;> cases ln <;> rfl
  | r :: rs, lp, ln => by
    have IH := startIdx_eq_max rs (r.pm25.or lp) (r.no2.or ln)
    simp only [startIdx, List.map_cons]
    cases hp : r.pm25 <;> rw [hp] at IH <;> cases hn : r.no2 <;> rw [hn] at IH <;>
      cases lp <;> cases ln <;>
      simp only [Option.or, Option.isSome] at IH ⊢ <;>
      simp [IH, firstObs, hp, hn] <;> omega

theorem ffillRows_preserves :
    ∀ (rows : List RawRow) (lp ln : Option ℚ) (i : Nat) (r : RawRow),
      rows[i]? = some r →
      ∃ q : RawRow, (ffillRows lp ln rows)[i]? = some q ∧
        q.city = r.city ∧ q.date = r.date ∧ q.other = r.other ∧
        (∀ v, r.pm25 = some v → q.pm25 = some v) ∧
        (∀ v, r.no2 = some v → q.no2 = some v)
  | [], _, _, i, r, h => by simp at h
  | x :: rs, lp, ln, 0, r, h => by
    rw [List.getElem?_cons_zero] at h
    obtain rfl : r = x := (Option.some.inj h).symm
    refine ⟨{ r with pm25 := r.pm25.or lp, no2 := r.no2.or ln },
      by simp [ffillRows], rfl, rfl, rfl, ?_, ?_⟩
    · intro v hv
      show r.pm25.or lp = some v
      rw [hv, Option.or_some]
    · intro v hv
      show r.no2.or ln = some v
      rw [hv, Option.or_some]
  | x :: rs, lp, ln, i + 1, r, h => by
    rw [List.getElem?_cons_succ] at h
    obtain ⟨q, hq, h1, h2, h3, h4, h5⟩ :=
      ffillRows_preserves rs (x.pm25.or lp) (x.no2.or ln) i r h
    exact ⟨q, by simpa only [ffillRows, List.getElem?_cons_succ] using hq,
      h1, h2, h3, h4, h5⟩

/-- C1 (amended): `dropna()` discards the rows still missing a value in
ANY column, not only the tracked `pm25` / `no2`.  When every untracked
column is fully observed, the discarded rows are exactly the leading rows
before both tracked columns have seen their first observation — if the
first `k` rows of a pollutant column are missing they are dropped, no row
after the first observation of every tracked field is dropped, and
forward-fill preserves every observed value in place (so the first
observed row keeps its own value). -/
theorem clean_drops_exactly_leading_gap (rows : List RawRow)
    (hOther : ∀ r ∈ rows, r.other.all Option.isSome = true) :
    clean rows =
      (ffillRows none none rows).drop
        (max (firstObs (rows.map RawRow.pm25)) (firstObs (rows.map RawRow.no2))) ∧
    (∀ (i : Nat) (r : RawRow), rows[i]? = some r →
      ∃ q : RawRow, (ffillRows none none rows)[i]? = some q ∧
        q.city = r.city ∧ q.date = r.date ∧ q.other = r.other ∧
        (∀ v, r.pm25 = some v → q.pm25 = some v) ∧
        (∀ v, r.no2 = some v → q.no2 = some v)) := by
  constructor
  · unfold clean
    rw [filter_keepRow_ffill rows none none hOther, startIdx_eq_max]
    simp
  · exact fun i r h => ffillRows_preserves rows none none i r h

def c1Rows : List RawRow :=
  [ ⟨"Delhi", 0, none, some 1, [some 5]⟩,
    ⟨"Delhi", 1, none, none, [some 6]⟩,
    ⟨"Delhi", 2, some 2, some 3, [some 7]⟩,
    ⟨"Delhi", 3, none, some 4, [some 8]⟩ ]

theorem clean_drops_exactly_leading_gap_witness :
    clean c1Rows =
      (ffillRows none none c1Rows).drop
        (max (firstObs (c1Rows.map RawRow.pm25)) (firstObs (c1Rows.map RawRow.no2))) :=
  (clean_drops_exactly_leading_gap c1Rows (by decide)).1

def c1Cex : List RawRow :=
  [ ⟨"Delhi", 0, some 10, some 20, [some 1]⟩,
    ⟨"Delhi", 1, some 11, some 21, [none]⟩ ]

/-- C1 counterexample: in `c1Cex` both tracked fields are observed on
every row (so after forward-fill no row misses a tracked value, and row 1
sits after the first observation of every tracked field), yet `dropna()`
discards row 1 because an untracked column holds a NaN: the discarded
rows are not exactly the rows missing a tracked value, and a row after
the first observations is dropped. -/
theorem clean_tracked_only_cex :
    (c1Cex.map RawRow.pm25).all Option.isSome = true ∧
    (c1Cex.map RawRow.no2).all Option.isSome = true ∧
    ((ffillRows none none c1Cex).filter
      (fun r => r.pm25.isSome && r.no2.isSome)).length = 2 ∧
    (clean c1Cex).length = 1 ∧
    clean c1Cex ≠
      (ffillRows none none c1Cex).filter (fun r => r.pm25.isSome && r.no2.isSome) := by
  refine ⟨rfl, rfl, rfl, rfl, ?_⟩
  intro h
  have hl := congrArg List.length h
  rw [show (clean c1Cex).length = 1 from rfl,
    show ((ffillRows none none c1Cex).filter
      (fun r => r.pm25.isSome && r.no2.isSome)).length = 2 from rfl] at hl
  exact absurd hl (by decide)

end OddEven
